import Mathlib

/-!
Shallow embedding of the per-seat input state engines of a Wayland
compositor toolkit: the keyboard state engine of
`src/wayland/seat/keyboard.rs` and the data-device (selection and
drag-and-drop) machinery of `src/wayland/data_device/mod.rs`.

Protocol resources (keyboards, surfaces, data devices, data sources)
are modelled by records carrying the attributes the embedded code
inspects: a numeric id (resource identity, `equals`), the owning
client's id (`client()` / `same_client_as`), a protocol version and a
liveness flag.  Wire events emitted to clients and callbacks delivered
to the embedder are reified as lists of constructors, in emission
order.  Calls into libxkbcommon are external FFI: the serialized
modifier quadruple is carried as opaque state, exactly as the Rust
code treats it.
-/

set_option autoImplicit false

namespace Smithay

/-- Key state of an input event, from `backend::input::KeyState`. -/
inductive KeyState where
  | Pressed : KeyState
  | Released : KeyState
deriving DecidableEq, Repr

/-- A `wl_keyboard` protocol resource, as seen by `KbdInternal`:
its resource id, the id of the owning client, and its protocol version. -/
structure WlKeyboard where
  id : Nat
  client : Nat
  version : Nat
deriving DecidableEq, Repr

/-- A `wl_surface` protocol resource: resource id and owning client id. -/
structure WlSurface where
  id : Nat
  client : Nat
deriving DecidableEq, Repr

/-- The pressed-keys tracking of `KbdInternal::key_input`
(`src/wayland/seat/keyboard.rs` lines 171-195): on `Pressed` the code runs
`self.pressed_keys.push(keycode)`; on `Released` it runs
`self.pressed_keys.retain(|&k| k != keycode)`.  The xkb state update that
follows is external FFI and does not touch the list. -/
def key_input_keys (pressed_keys : List Nat) (keycode : Nat) (state : KeyState) : List Nat :=
  match state with
  | KeyState.Pressed => pressed_keys ++ [keycode]
  | KeyState.Released => pressed_keys.filter (fun k => k != keycode)

/-- Byte serialization of the pressed-keys list,
`KbdInternal::serialize_pressed_keys`: the `Vec<u32>` is reinterpreted as
raw bytes, i.e. 4 little-endian bytes per keycode, preserving press order. -/
def serialize_pressed_keys (keys : List Nat) : List Nat :=
  keys.flatMap (fun k => [k % 256, k / 256 % 256, k / 65536 % 256, k / 16777216 % 256])

/-- The state of `KbdInternal` that the embedded operations read and write.
The xkb keymap/state objects are external; the code only ever forwards the
quadruple produced by `serialize_modifiers` (depressed, latched, locked,
locked layout), which is carried here as an opaque field. -/
structure KbdInternal where
  known_kbds : List WlKeyboard
  focus : Option WlSurface
  pressed_keys : List Nat
  mods_serialized : Nat × Nat × Nat × Nat
  repeat_rate : Int
  repeat_delay : Int
deriving DecidableEq, Repr

/-- Wire events sent to `wl_keyboard` resources, tagged with the resource id
of the keyboard they are sent to. -/
inductive KbdEvent where
  | leave (kbd : Nat) (serial : Nat) (surface : Nat)
  | enter (kbd : Nat) (serial : Nat) (surface : Nat) (keys : List Nat)
  | modifiers (kbd : Nat) (serial : Nat) (dep : Nat) (la : Nat) (lo : Nat) (gr : Nat)
  | key (kbd : Nat) (serial : Nat) (time : Nat) (keycode : Nat) (state : KeyState)
  | repeat_info (kbd : Nat) (rate : Int) (delay : Int)
deriving DecidableEq, Repr

/-- `KbdInternal::with_focused_kbds`: if a focus surface is set, run `f` on
every known keyboard belonging to the same client as the focus surface
(`kbd.as_ref().same_client_as(surface.as_ref())`), collecting the events
each call emits, in list order. -/
def KbdInternal.with_focused_kbds (st : KbdInternal) (f : WlKeyboard → WlSurface → List KbdEvent) :
    List KbdEvent :=
  match st.focus with
  | none => []
  | some surface =>
    (st.known_kbds.filter (fun kbd => kbd.client == surface.client)).flatMap
      (fun kbd => f kbd surface)

/-- The `same` test of `KeyboardInnerHandle::set_focus`:
`self.inner.focus.as_ref().and_then(|f| focus.map(|s| s.as_ref().equals(f.as_ref()))).unwrap_or(false)`.
It is `true` exactly when both the current and the new focus are present and
are the same surface resource; it is `false` whenever either side is `None`. -/
def focus_same (cur new : Option WlSurface) : Bool :=
  match cur, new with
  | some f, some s => s == f
  | _, _ => false

/-- `KeyboardInnerHandle::set_focus` (`src/wayland/seat/keyboard.rs` lines
689-728).  Computes `same` exactly as the source does
(`self.inner.focus.as_ref().and_then(|f| focus.map(|s| s.as_ref().equals(f.as_ref()))).unwrap_or(false)`);
if not `same`, sends `leave` to the keyboards focused on the old surface,
updates the focus, sends `enter` (with the serialized pressed keys) then
`modifiers` to the keyboards focused on the new surface, and finally invokes
the focus hook with the new focus.  Returns the new state, the wire events
in emission order, and the list of focus-hook invocations (the argument of
each call, as an optional surface id). -/
def KbdInternal.set_focus (st : KbdInternal) (focus : Option WlSurface) (serial : Nat) :
    KbdInternal × List KbdEvent × List (Option Nat) :=
  if focus_same st.focus focus then
    (st, [], [])
  else
    let leaves := st.with_focused_kbds (fun kbd s => [KbdEvent.leave kbd.id serial s.id])
    let st1 : KbdInternal := { st with focus := focus }
    let keys := serialize_pressed_keys st1.pressed_keys
    let enters := st1.with_focused_kbds (fun kbd s =>
      [KbdEvent.enter kbd.id serial s.id keys,
       KbdEvent.modifiers kbd.id serial st1.mods_serialized.1 st1.mods_serialized.2.1
         st1.mods_serialized.2.2.1 st1.mods_serialized.2.2.2])
    (st1, leaves ++ enters, [focus.map WlSurface.id])

/-- `KeyboardHandle::change_repeat_info` (`src/wayland/seat/keyboard.rs`
lines 597-604): stores the new delay and rate, then sends `repeat_info` to
every keyboard in `known_kbds` (the source loop performs no version check). -/
def KbdInternal.change_repeat_info (st : KbdInternal) (rate : Int) (delay : Int) :
    KbdInternal × List KbdEvent :=
  ({ st with repeat_delay := delay, repeat_rate := rate },
   st.known_kbds.map (fun kbd => KbdEvent.repeat_info kbd.id rate delay))

/-- Recognizer for `leave` events. -/
def KbdEvent.isLeave : KbdEvent → Bool
  | KbdEvent.leave _ _ _ => true
  | _ => false

/-- Recognizer for `enter` events. -/
def KbdEvent.isEnter : KbdEvent → Bool
  | KbdEvent.enter _ _ _ _ => true
  | _ => false

/-- Recognizer for `key` events. -/
def KbdEvent.isKey : KbdEvent → Bool
  | KbdEvent.key _ _ _ _ _ => true
  | _ => false

/-- Ordering predicate on an event trace: no `leave` event occurs after any
`enter` event, i.e. every `leave` of the trace precedes every `enter`. -/
def no_leave_after_enter : List KbdEvent → Bool
  | [] => true
  | e :: rest =>
    (if e.isEnter then rest.all (fun x => !x.isLeave) else true) && no_leave_after_enter rest

/-- Pairing predicate on an event trace: every `enter` event sent to a
keyboard resource is immediately followed by a `modifiers` event sent to the
same keyboard resource, with nothing in between. -/
def enters_paired : List KbdEvent → Bool
  | [] => true
  | KbdEvent.enter k _ _ _ :: rest =>
    (match rest with
     | KbdEvent.modifiers k' _ _ _ _ _ :: _ => k == k'
     | _ => false) && enters_paired rest
  | _ :: rest => enters_paired rest

/-- The `DndAction` bitflags of `wl_data_device_manager` (bits Copy, Move,
Ask), modelled as one Boolean per bit. -/
structure DndAction where
  copy : Bool
  move : Bool
  ask : Bool
deriving DecidableEq, Repr

/-- The empty action set, `DndAction::empty()`. -/
def DndAction.empty : DndAction := ⟨false, false, false⟩

/-- The singleton `Copy` action. -/
def DndAction.Copy : DndAction := ⟨true, false, false⟩

/-- The singleton `Move` action. -/
def DndAction.Move : DndAction := ⟨false, true, false⟩

/-- The singleton `Ask` action. -/
def DndAction.Ask : DndAction := ⟨false, false, true⟩

/-- Bitflags containment `a.contains(b)`: every bit set in `b` is set in
`a`. -/
def DndAction.contains (a b : DndAction) : Bool :=
  (!b.copy || a.copy) && (!b.move || a.move) && (!b.ask || a.ask)

/-- `default_action_chooser` (`src/wayland/data_device/mod.rs` lines
506-522), translated clause by clause from the source: if the preferred
action is one of the three singleton actions (checked with
`[DndAction::Move, DndAction::Copy, DndAction::Ask].contains(&preferred)`,
an equality test) and is contained in the available set, pick it; otherwise
fall back to `Ask`, then `Copy`, then `Move`, from the available set;
otherwise the empty action. -/
def default_action_chooser (available preferred : DndAction) : DndAction :=
  if [DndAction.Move, DndAction.Copy, DndAction.Ask].contains preferred
      && available.contains preferred then
    preferred
  else if available.contains DndAction.Ask then
    DndAction.Ask
  else if available.contains DndAction.Copy then
    DndAction.Copy
  else if available.contains DndAction.Move then
    DndAction.Move
  else
    DndAction.empty

/-- The reference arbitration function as the spec words it, written
independently of the source: return `preferred` when it is exactly one of
Move, Copy, Ask and lies in `available`; else prefer Ask, then Copy, then
Move, from the available set; else the empty action. -/
def action_chooser_spec (available preferred : DndAction) : DndAction :=
  if (preferred = DndAction.Move ∨ preferred = DndAction.Copy ∨ preferred = DndAction.Ask)
      ∧ available.contains preferred = true then
    preferred
  else if available.contains DndAction.Ask = true then
    DndAction.Ask
  else if available.contains DndAction.Copy = true then
    DndAction.Copy
  else if available.contains DndAction.Move = true then
    DndAction.Move
  else
    DndAction.empty

/-- Metadata of a data source (`SourceMetadata` of the data-source module):
the advertised MIME list, in order, and the advertised DnD action set. -/
structure SourceMetadata where
  mime_types : List String
  dnd_action : DndAction
deriving DecidableEq, Repr

/-- A `wl_data_source` protocol resource: resource id, liveness
(`as_ref().is_alive()`), and its stored metadata. -/
structure WlDataSource where
  id : Nat
  alive : Bool
  metadata : SourceMetadata
deriving DecidableEq, Repr

/-- A `wl_data_device` protocol resource: resource id, the owning client as
`as_ref().client()` returns it (absent when the resource is dead), and its
protocol version. -/
structure WlDataDevice where
  id : Nat
  client : Option Nat
  version : Nat
deriving DecidableEq, Repr

/-- The per-seat selection, the `Selection` enum of
`src/wayland/data_device/mod.rs`. -/
inductive Selection where
  | Empty : Selection
  | Client : WlDataSource → Selection
  | Compositor : SourceMetadata → Selection
deriving DecidableEq, Repr

/-- The per-seat data-device state, the fields of `SeatData` the embedded
operations read and write (the logger is omitted): the list of known data
devices, the current selection, and the client holding data-device focus. -/
structure SeatData where
  known_devices : List WlDataDevice
  selection : Selection
  current_focus : Option Nat
deriving DecidableEq, Repr

/-- Wire events emitted by the data-device module, in emission order. -/
inductive DDEvent where
  | data_offer (dd : Nat) (offer : Nat)
  | offer_mime (offer : Nat) (mime : String)
  | selection_event (dd : Nat) (offer : Option Nat)
  | post_error (dd : Nat) (code : Nat)
deriving DecidableEq, Repr

/-- Callbacks delivered to the embedder-supplied closure (the cases of
`DataDeviceEvent` the embedded requests can produce), with resources
identified by id. -/
inductive DataDeviceEvent where
  | NewSelection (source : Option Nat)
  | DnDStarted (source : Option Nat) (icon : Option Nat)
deriving DecidableEq, Repr

/-- The devices of the seat belonging to `client`: `send_selection` skips
every data device whose `client()` is absent or differs from the focused
client. -/
def belonging_devices (sd : SeatData) (client : Nat) : List WlDataDevice :=
  sd.known_devices.filter (fun dd => dd.client == some client)

/-- Advertisement of one offer per belonging device: for each device, create
a fresh `wl_data_offer` resource (ids allocated from `next_offer` upward),
introduce it with `data_offer`, advertise every MIME type of the stored list
in its stored order, then send `selection` carrying the offer.  This is the
common wire-event shape of the `Selection::Client` and
`Selection::Compositor` arms of `SeatData::send_selection` (the two arms
differ only in the `receive` handler installed on the offer, which emits no
event at advertisement time). -/
def advertise_offers (devices : List WlDataDevice) (mimes : List String) (next_offer : Nat) :
    List DDEvent :=
  match devices with
  | [] => []
  | dd :: rest =>
    [DDEvent.data_offer dd.id next_offer]
      ++ mimes.map (fun m => DDEvent.offer_mime next_offer m)
      ++ [DDEvent.selection_event dd.id (some next_offer)]
      ++ advertise_offers rest mimes (next_offer + 1)

/-- `SeatData::send_selection` (`src/wayland/data_device/mod.rs` lines
131-242).  No-op without a current focus.  Otherwise first sanitize: if the
selection is `Client` and the source is no longer alive, reset it to
`Empty`.  Then advertise to every device of the focused client: a null
`selection` for `Empty`, or a fresh offer (introduced, filled with the MIME
list, then bound by `selection`) for `Client` and `Compositor`.  Returns the
new seat data and the wire events in emission order; `next_offer` seeds the
ids of freshly created offer resources. -/
def SeatData.send_selection (sd : SeatData) (next_offer : Nat) : SeatData × List DDEvent :=
  match sd.current_focus with
  | none => (sd, [])
  | some client =>
    let cleanup := match sd.selection with
      | Selection.Client ds => !ds.alive
      | _ => false
    let sd1 := if cleanup then { sd with selection := Selection.Empty } else sd
    match sd1.selection with
    | Selection.Empty =>
      (sd1, (belonging_devices sd1 client).map (fun dd => DDEvent.selection_event dd.id none))
    | Selection.Client ds =>
      (sd1, advertise_offers (belonging_devices sd1 client) ds.metadata.mime_types next_offer)
    | Selection.Compositor meta =>
      (sd1, advertise_offers (belonging_devices sd1 client) meta.mime_types next_offer)

/-- `SeatData::set_selection`: store the new selection, then run an
advertisement pass. -/
def SeatData.set_selection (sd : SeatData) (s : Selection) (next_offer : Nat) :
    SeatData × List DDEvent :=
  SeatData.send_selection { sd with selection := s } next_offer

/-- The view of the seat's keyboard that the data-device module consumes:
`KeyboardHandle::has_focus` only inspects the client of the focused surface
(`focus.as_ref().and_then(|f| f.as_ref().client())`), carried here
directly. -/
structure KeyboardView where
  focus_client : Option Nat
deriving DecidableEq, Repr

/-- `KeyboardHandle::has_focus` (`src/wayland/seat/keyboard.rs` lines
544-553): true exactly when the focused surface exists, its client is
retrievable, and that client equals `c`. -/
def KeyboardView.has_focus (k : KeyboardView) (c : Nat) : Bool :=
  k.focus_client == some c

/-- Modelled from the spec: the pointer state of the seat module
(`src/wayland/seat/pointer.rs` is not part of the sources).  Per the spec, a
drag may start only when "the pointer on this seat must currently have an
implicit grab at exactly this serial", so the model carries the serial of
the current grab, if any, plus a marker recording that a DnD grab replaced
it. -/
structure Pointer where
  grab_serial : Option Nat
  dnd_grab : Bool
deriving DecidableEq, Repr

/-- Modelled from the spec: `PointerHandle::has_grab(serial)` holds exactly
when the pointer currently holds a grab at exactly this serial. -/
def Pointer.has_grab (p : Pointer) (serial : Nat) : Bool :=
  p.grab_serial == some serial

/-- The seat state consumed by the data-device request handlers:
`seat.get_keyboard()`, `seat.get_pointer()` (absent when the capability is
missing) and the per-seat `SeatData`. -/
structure Seat where
  keyboard : Option KeyboardView
  pointer : Option Pointer
  data : SeatData
deriving DecidableEq, Repr

/-- Spec-side predicate: the requesting device's client currently has
keyboard focus on this seat (the seat has a keyboard, the device has a live
client, and that client holds keyboard focus). -/
def requester_has_kbd_focus (seat : Seat) (dd : WlDataDevice) : Bool :=
  match seat.keyboard, dd.client with
  | some k, some c => k.has_focus c
  | _, _ => false

/-- Spec-side predicate: the seat's pointer currently holds an implicit grab
at exactly this serial. -/
def pointer_has_implicit_grab (seat : Seat) (serial : Nat) : Bool :=
  match seat.pointer with
  | some p => p.has_grab serial
  | none => false

/-- The `Request::SetSelection` arm of `implement_data_device`
(`src/wayland/data_device/mod.rs` lines 466-485): if the seat has a keyboard
and the requesting device's client (`dd.as_ref().client()`) exists and has
keyboard focus (`keyboard.has_focus(c)`), deliver the `NewSelection`
callback and store the new selection (running an advertisement pass);
otherwise fall through to the debug log only.  Returns the new seat, the
callbacks and the wire events. -/
def handle_set_selection (seat : Seat) (dd : WlDataDevice) (source : Option WlDataSource)
    (next_offer : Nat) : Seat × List DataDeviceEvent × List DDEvent :=
  match seat.keyboard with
  | some keyboard =>
    if (match dd.client with
        | some c => keyboard.has_focus c
        | none => false) then
      let sel := match source with
        | some s => Selection.Client s
        | none => Selection.Empty
      let out := seat.data.set_selection sel next_offer
      ({ seat with data := out.1 },
       [DataDeviceEvent.NewSelection (source.map WlDataSource.id)],
       out.2)
    else
      (seat, [], [])
  | none => (seat, [], [])

/-- A `wl_surface` offered as DnD icon: resource id plus whether
`compositor::give_role(icon, "dnd_icon")` would fail because the surface
already has another role. -/
structure IconSurface where
  id : Nat
  role_taken : Bool
deriving DecidableEq, Repr

/-- Protocol error code `wl_data_device::Error::Role`. -/
def dd_error_role : Nat := 0

/-- The `Request::StartDrag` arm of `implement_data_device`
(`src/wayland/data_device/mod.rs` lines 425-465): if the seat has a pointer
holding a grab at exactly the request's serial, then (a) a given icon whose
role assignment fails posts the `Role` protocol error on the device and
aborts; (b) otherwise the `DnDStarted` callback is delivered and a DnD grab
replaces the pointer grab at this serial.  When the pointer has no grab at
this serial (or there is no pointer), the request falls through to the debug
log only. -/
def handle_start_drag (seat : Seat) (source : Option WlDataSource)
    (icon : Option IconSurface) (dd : WlDataDevice) (serial : Nat) :
    Seat × List DataDeviceEvent × List DDEvent :=
  match seat.pointer with
  | some pointer =>
    if pointer.has_grab serial then
      if (match icon with
          | some ic => ic.role_taken
          | none => false) then
        (seat, [], [DDEvent.post_error dd.id dd_error_role])
      else
        ({ seat with pointer := some { grab_serial := some serial, dnd_grab := true } },
         [DataDeviceEvent.DnDStarted (source.map WlDataSource.id) (icon.map IconSurface.id)],
         [])
    else
      (seat, [], [])
  | none => (seat, [], [])

end Smithay

namespace Smithay

/-- The claim C4 predicts that releasing a key removes only the first
occurrence from the pressed-keys list; on the list `[5, 5]` the code's
`retain` removes both occurrences, yielding `[]` rather than `[5]`. -/
theorem key_input_released_first_match_cex :
    key_input_keys [5, 5] 5 KeyState.Released = ([] : List Nat) ∧
      ([] : List Nat) ≠ [5] := by
  decide

/-- Claim C4, amended: on `Pressed` the keycode is appended at the end of the
pressed-keys list; on `Released` every occurrence of the keycode is removed
(count of the released keycode drops to 0, every other keycode keeps its
multiplicity) and the surviving elements keep their order (the result is a
sublist of the previous list). -/
theorem key_input_pressed_keys_update (p : List Nat) (k : Nat) :
    key_input_keys p k KeyState.Pressed = p ++ [k] ∧
      (∀ j : Nat, (key_input_keys p k KeyState.Released).count j =
        if j = k then 0 else p.count j) ∧
      (key_input_keys p k KeyState.Released).Sublist p := by
  refine ⟨rfl, fun j => ?_, List.filter_sublist p⟩
  simp only [key_input_keys]
  induction p with
  | nil => cases Decidable.em (j = k) <;> simp_all
  | cons a t ih =>
    by_cases hak : a = k
    · subst hak
      simp only [List.filter_cons, bne_self_eq_false, Bool.false_eq_true, if_false, ih]
      cases Decidable.em (j = a) with
      | inl h => subst h; simp
      | inr h => simp [List.count_cons, h]
    · simp only [List.filter_cons, bne_iff_ne, ne_eq, hak, not_false_eq_true, if_true]
      cases Decidable.em (j = a) with
      | inl h =>
        subst h
        have hjk : ¬ j = k := hak
        simp [List.count_cons, ih, hjk]
      | inr h => simp [List.count_cons, h, ih]

/-- The claim C5 predicts that `input(k, Pressed); input(k, Released)`
restores the pressed-keys list for every prior list, including lists already
containing `k`; starting from `[5]` with `k = 5`, the press yields `[5, 5]`
and the release removes all occurrences, leaving `[]` instead of `[5]`. -/
theorem key_input_round_trip_cex :
    key_input_keys (key_input_keys [5] 5 KeyState.Pressed) 5 KeyState.Released ≠ [5] := by
  decide

/-- Claim C5, amended: `input(k, Pressed); input(k, Released)` restores the
pressed-keys list whenever `k` was not already in the list before the press. -/
theorem key_input_round_trip (p : List Nat) (k : Nat) (h : k ∉ p) :
    key_input_keys (key_input_keys p k KeyState.Pressed) k KeyState.Released = p := by
  simp only [key_input_keys, List.filter_append]
  have h1 : List.filter (fun x => x != k) [k] = [] := by simp
  rw [h1, List.append_nil]
  apply List.filter_eq_self.mpr
  intro a ha
  simp only [bne_iff_ne, ne_eq]
  intro hak
  exact h (hak ▸ ha)

/-- Witness for the amended C5 round-trip at a concrete input. -/
theorem key_input_round_trip_witness :
    key_input_keys (key_input_keys [1, 2] 5 KeyState.Pressed) 5 KeyState.Released = [1, 2] :=
  key_input_round_trip [1, 2] 5 (by decide)

lemma focus_same_implies_eq {cur new : Option WlSurface} (h : focus_same cur new = true) :
    cur = new := by
  cases cur with
  | none => simp [focus_same] at h
  | some f =>
    cases new with
    | none => simp [focus_same] at h
    | some s =>
      simp only [focus_same, beq_iff_eq] at h
      rw [h]

lemma focus_same_none_right (cur : Option WlSurface) : focus_same cur none = false := by
  cases cur <;> rfl

lemma leaves_all_leave (l : List WlKeyboard) (serial sid : Nat) :
    (l.flatMap (fun kbd => [KbdEvent.leave kbd.id serial sid])).all KbdEvent.isLeave = true := by
  induction l with
  | nil => rfl
  | cons a t ih => simp [KbdEvent.isLeave, ih]

lemma leaves_all_not_key (l : List WlKeyboard) (serial sid : Nat) :
    (l.flatMap (fun kbd => [KbdEvent.leave kbd.id serial sid])).all
      (fun e => !KbdEvent.isKey e) = true := by
  induction l with
  | nil => rfl
  | cons a t ih => simp [KbdEvent.isKey, ih]

lemma pairs_all_not_leave (l : List WlKeyboard) (serial sid : Nat) (keys : List Nat)
    (dep la lo gr : Nat) :
    (l.flatMap (fun kbd =>
      [KbdEvent.enter kbd.id serial sid keys,
       KbdEvent.modifiers kbd.id serial dep la lo gr])).all
        (fun e => !KbdEvent.isLeave e) = true := by
  induction l with
  | nil => rfl
  | cons a t ih => simp [KbdEvent.isLeave, ih]

lemma pairs_all_not_key (l : List WlKeyboard) (serial sid : Nat) (keys : List Nat)
    (dep la lo gr : Nat) :
    (l.flatMap (fun kbd =>
      [KbdEvent.enter kbd.id serial sid keys,
       KbdEvent.modifiers kbd.id serial dep la lo gr])).all
        (fun e => !KbdEvent.isKey e) = true := by
  induction l with
  | nil => rfl
  | cons a t ih => simp [KbdEvent.isKey, ih]

lemma pairs_enters_paired (l : List WlKeyboard) (serial sid : Nat) (keys : List Nat)
    (dep la lo gr : Nat) :
    enters_paired (l.flatMap (fun kbd =>
      [KbdEvent.enter kbd.id serial sid keys,
       KbdEvent.modifiers kbd.id serial dep la lo gr])) = true := by
  induction l with
  | nil => rfl
  | cons a t ih => simpa [enters_paired] using ih

lemma isLeave_not_isEnter {e : KbdEvent} (h : e.isLeave = true) : e.isEnter = false := by
  cases e <;> simp_all [KbdEvent.isLeave, KbdEvent.isEnter]

lemma no_leave_after_enter_append {A B : List KbdEvent}
    (hA : A.all KbdEvent.isLeave = true)
    (hBp : no_leave_after_enter B = true) :
    no_leave_after_enter (A ++ B) = true := by
  induction A with
  | nil => simpa using hBp
  | cons a t ih =>
    simp only [List.all_cons, Bool.and_eq_true] at hA
    have ha := isLeave_not_isEnter hA.1
    simp only [List.cons_append, no_leave_after_enter, ha, if_false, Bool.true_and,
      Bool.and_eq_true]
    exact ⟨by simp, ih hA.2⟩

lemma enters_paired_cons_not_enter {a : KbdEvent} {rest : List KbdEvent}
    (h : a.isEnter = false) :
    enters_paired (a :: rest) = enters_paired rest := by
  cases a <;> simp_all [enters_paired, KbdEvent.isEnter]

lemma enters_paired_append_front {A B : List KbdEvent}
    (hA : A.all KbdEvent.isLeave = true) (hB : enters_paired B = true) :
    enters_paired (A ++ B) = true := by
  induction A with
  | nil => simpa using hB
  | cons a t ih =>
    simp only [List.all_cons, Bool.and_eq_true] at hA
    rw [List.cons_append, enters_paired_cons_not_enter (isLeave_not_isEnter hA.1)]
    exact ih hA.2

lemma no_leave_after_enter_of_no_leave {B : List KbdEvent}
    (hB : B.all (fun e => !KbdEvent.isLeave e) = true) :
    no_leave_after_enter B = true := by
  induction B with
  | nil => rfl
  | cons a t ih =>
    simp only [List.all_cons, Bool.and_eq_true] at hB
    simp only [no_leave_after_enter, Bool.and_eq_true]
    refine ⟨?_, ih hB.2⟩
    by_cases he : a.isEnter = true
    · simp only [he, if_true]
      exact List.all_eq_true.mpr (fun e hm => (List.all_eq_true.mp hB.2) e hm)
    · simp [he]

lemma with_focused_kbds_leaves_all_leave (st : KbdInternal) (serial : Nat) :
    (st.with_focused_kbds (fun kbd s => [KbdEvent.leave kbd.id serial s.id])).all
      KbdEvent.isLeave = true := by
  unfold KbdInternal.with_focused_kbds
  cases st.focus with
  | none => rfl
  | some surface => exact leaves_all_leave _ serial surface.id

lemma with_focused_kbds_leaves_not_key (st : KbdInternal) (serial : Nat) :
    (st.with_focused_kbds (fun kbd s => [KbdEvent.leave kbd.id serial s.id])).all
      (fun e => !KbdEvent.isKey e) = true := by
  unfold KbdInternal.with_focused_kbds
  cases st.focus with
  | none => rfl
  | some surface => exact leaves_all_not_key _ serial surface.id

/-- Claim C7: on every focus change dispatched through
`KeyboardInnerHandle::set_focus`, the emitted wire-event trace has all
`leave` events before any `enter` event, every `enter` sent to a keyboard
resource is immediately followed by exactly one `modifiers` event to that
same resource (so no `key` event can come between them), and the transition
itself emits no `key` event at all. -/
theorem set_focus_event_order (st : KbdInternal) (focus : Option WlSurface) (serial : Nat) :
    no_leave_after_enter (st.set_focus focus serial).2.1 = true ∧
      enters_paired (st.set_focus focus serial).2.1 = true ∧
      (st.set_focus focus serial).2.1.all (fun e => !KbdEvent.isKey e) = true := by
  unfold KbdInternal.set_focus
  by_cases h : focus_same st.focus focus
  · simp [h, no_leave_after_enter, enters_paired]
  · simp only [h, Bool.false_eq_true, if_false]
    set st1 : KbdInternal := { st with focus := focus } with hst1
    have hleaveA := with_focused_kbds_leaves_all_leave st serial
    have hkeyA := with_focused_kbds_leaves_not_key st serial
    have hB :
        (st1.with_focused_kbds (fun kbd s =>
          [KbdEvent.enter kbd.id serial s.id (serialize_pressed_keys st1.pressed_keys),
           KbdEvent.modifiers kbd.id serial st1.mods_serialized.1 st1.mods_serialized.2.1
             st1.mods_serialized.2.2.1 st1.mods_serialized.2.2.2])).all
          (fun e => !KbdEvent.isLeave e) = true ∧
        enters_paired (st1.with_focused_kbds (fun kbd s =>
          [KbdEvent.enter kbd.id serial s.id (serialize_pressed_keys st1.pressed_keys),
           KbdEvent.modifiers kbd.id serial st1.mods_serialized.1 st1.mods_serialized.2.1
             st1.mods_serialized.2.2.1 st1.mods_serialized.2.2.2])) = true ∧
        (st1.with_focused_kbds (fun kbd s =>
          [KbdEvent.enter kbd.id serial s.id (serialize_pressed_keys st1.pressed_keys),
           KbdEvent.modifiers kbd.id serial st1.mods_serialized.1 st1.mods_serialized.2.1
             st1.mods_serialized.2.2.1 st1.mods_serialized.2.2.2])).all
          (fun e => !KbdEvent.isKey e) = true := by
      unfold KbdInternal.with_focused_kbds
      cases st1.focus with
      | none => exact ⟨rfl, rfl, rfl⟩
      | some surface =>
        exact ⟨pairs_all_not_leave _ _ _ _ _ _ _ _, pairs_enters_paired _ _ _ _ _ _ _ _,
          pairs_all_not_key _ _ _ _ _ _ _ _⟩
    refine ⟨no_leave_after_enter_append hleaveA ?_, enters_paired_append_front hleaveA hB.2.1,
      ?_⟩
    · exact no_leave_after_enter_of_no_leave hB.1
    · rw [List.all_append]
      exact by simp [hkeyA, hB.2.2]

lemma set_focus_from_none (st : KbdInternal) (serial : Nat) (h : st.focus = none) :
    st.set_focus none serial = (st, [], [none]) := by
  unfold KbdInternal.set_focus
  rw [focus_same_none_right]
  simp only [Bool.false_eq_true, if_false]
  have h1 : (KbdInternal.with_focused_kbds st (fun kbd s => [KbdEvent.leave kbd.id serial s.id]))
      = [] := by
    unfold KbdInternal.with_focused_kbds
    rw [h]
  have h2 : ({ st with focus := none } : KbdInternal) = st := by
    obtain ⟨kk, ff, pk, ms, rr, rd⟩ := st
    simp_all
  rw [h1, h2]
  have h3 : (KbdInternal.with_focused_kbds st (fun kbd s =>
      [KbdEvent.enter kbd.id serial s.id (serialize_pressed_keys st.pressed_keys),
       KbdEvent.modifiers kbd.id serial st.mods_serialized.1 st.mods_serialized.2.1
         st.mods_serialized.2.2.1 st.mods_serialized.2.2.2])) = [] := by
    unfold KbdInternal.with_focused_kbds
    rw [h]
  rw [h3]
  simp

lemma set_focus_to_current (st : KbdInternal) (s : WlSurface) (serial : Nat)
    (h : st.focus = some s) :
    st.set_focus (some s) serial = (st, [], []) := by
  unfold KbdInternal.set_focus
  rw [h]
  simp [focus_same]

lemma set_focus_sets_focus (st : KbdInternal) (F : Option WlSurface) (serial : Nat) :
    (st.set_focus F serial).1.focus = F := by
  unfold KbdInternal.set_focus
  by_cases h : focus_same st.focus F
  · simpa [h] using focus_same_implies_eq h
  · simp [h]

/-- Claim C8: two consecutive `set_focus` calls with the same target focus
emit no wire events on the second call, and the second call leaves the
keyboard state unchanged. -/
theorem set_focus_same_focus_no_events (st : KbdInternal) (F : Option WlSurface)
    (s1 s2 : Nat) :
    ((st.set_focus F s1).1.set_focus F s2).2.1 = [] ∧
      ((st.set_focus F s1).1.set_focus F s2).1 = (st.set_focus F s1).1 := by
  have hfocus : (st.set_focus F s1).1.focus = F := set_focus_sets_focus st F s1
  cases F with
  | some s =>
    rw [set_focus_to_current _ s s2 hfocus]
    exact ⟨rfl, rfl⟩
  | none =>
    rw [set_focus_from_none _ s2 hfocus]
    exact ⟨rfl, rfl⟩

/-- Claim C10: when the current focus is already `None` and `set_focus` is
called with `None`, the `same` test is `false` (two absent focuses are never
classified as equal), so the focus-change branch runs: the focus hook is
invoked with `None` even though no wire event is emitted and the state does
not change. -/
theorem set_focus_none_refires_hook (st : KbdInternal) (serial : Nat) (h : st.focus = none) :
    (st.set_focus none serial).2.2 = [none] ∧
      (st.set_focus none serial).2.1 = [] ∧
      (st.set_focus none serial).1 = st := by
  rw [set_focus_from_none st serial h]
  exact ⟨rfl, rfl, rfl⟩

/-- Witness for C10 at a concrete keyboard state whose focus is `None`. -/
theorem set_focus_none_refires_hook_witness :
    ((⟨[⟨3, 1, 4⟩], none, [], (0, 0, 0, 0), 25, 600⟩ : KbdInternal).set_focus none 7).2.2
        = [none] ∧
      ((⟨[⟨3, 1, 4⟩], none, [], (0, 0, 0, 0), 25, 600⟩ : KbdInternal).set_focus none 7).2.1
        = [] ∧
      ((⟨[⟨3, 1, 4⟩], none, [], (0, 0, 0, 0), 25, 600⟩ : KbdInternal).set_focus none 7).1
        = ⟨[⟨3, 1, 4⟩], none, [], (0, 0, 0, 0), 25, 600⟩ :=
  set_focus_none_refires_hook ⟨[⟨3, 1, 4⟩], none, [], (0, 0, 0, 0), 25, 600⟩ 7 rfl

/-- Claim C9: the code's `default_action_chooser` agrees with the spec's
arbitration rule on every pair of action sets: the preferred action is
returned when it is exactly one of Move, Copy, Ask and is contained in the
available set; otherwise Ask, then Copy, then Move is picked from the
available set; otherwise the empty action. -/
theorem default_action_chooser_matches_spec (a p : DndAction) :
    default_action_chooser a p = action_chooser_spec a p := by
  obtain ⟨ac, am, aa⟩ := a
  obtain ⟨pc, pm, pa⟩ := p
  cases ac <;> cases am <;> cases aa <;> cases pc <;> cases pm <;> cases pa <;> decide

lemma send_selection_selection_cases (sd : SeatData) (n : Nat) :
    (sd.send_selection n).1.selection = sd.selection ∨
      (sd.send_selection n).1.selection = Selection.Empty := by
  obtain ⟨devs, sel, focus⟩ := sd
  cases focus with
  | none => left; rfl
  | some c =>
    cases sel with
    | Empty => right; rfl
    | Client ds =>
      cases hds : ds.alive with
      | true => left; simp [SeatData.send_selection, hds]
      | false => right; simp [SeatData.send_selection, hds]
    | Compositor meta => left; rfl

/-- Claim C1: a `SetSelection` request takes effect (exactly one
`NewSelection` callback, and the selection updated to the requested client
source or to empty) precisely when the requesting device's client holds
keyboard focus on the seat; without keyboard focus the request leaves the
seat untouched, fires no callback and emits no wire event. -/
theorem set_selection_requires_focus (seat : Seat) (dd : WlDataDevice)
    (source : Option WlDataSource) (n : Nat) :
    (requester_has_kbd_focus seat dd = true →
      (handle_set_selection seat dd source n).2.1
          = [DataDeviceEvent.NewSelection (source.map WlDataSource.id)] ∧
        (source = none →
          (handle_set_selection seat dd source n).1.data.selection = Selection.Empty) ∧
        (∀ s : WlDataSource, source = some s →
          (handle_set_selection seat dd source n).1.data.selection = Selection.Client s ∨
            (handle_set_selection seat dd source n).1.data.selection = Selection.Empty)) ∧
      (requester_has_kbd_focus seat dd = false →
        handle_set_selection seat dd source n = (seat, [], [])) := by
  obtain ⟨kb, pt, sdata⟩ := seat
  cases kb with
  | none => simp [requester_has_kbd_focus, handle_set_selection]
  | some k =>
    cases hc : dd.client with
    | none => simp [requester_has_kbd_focus, handle_set_selection, hc]
    | some c =>
      by_cases hf : k.has_focus c
      · rw [show requester_has_kbd_focus ⟨some k, pt, sdata⟩ dd = true by
          simp [requester_has_kbd_focus, hc, hf]]
        constructor
        · intro _
          refine ⟨?_, ?_, ?_⟩
          · simp [handle_set_selection, hc, hf]
          · intro hs
            subst hs
            have := send_selection_selection_cases { sdata with selection := Selection.Empty } n
            simp only [handle_set_selection, hc, hf, if_true, SeatData.set_selection] at this ⊢
            rcases this with h | h <;> simpa using h
          · intro s hs
            subst hs
            have := send_selection_selection_cases { sdata with selection := Selection.Client s } n
            simp only [handle_set_selection, hc, hf, if_true, SeatData.set_selection] at this ⊢
            rcases this with h | h
            · left; simpa using h
            · right; simpa using h
        · intro hfalse
          simp at hfalse
      · rw [show requester_has_kbd_focus ⟨some k, pt, sdata⟩ dd = false by
          simp [requester_has_kbd_focus, hc, hf]]
        constructor
        · intro htrue
          simp at htrue
        · intro _
          simp [handle_set_selection, hc, hf]

/-- Witness for C1: with keyboard focus the request is accepted (callback
fired, selection emptied by a null source); without keyboard focus the very
same request is a complete no-op. -/
theorem set_selection_requires_focus_witness :
    ((handle_set_selection ⟨some ⟨some 10⟩, none, ⟨[⟨2, some 10, 3⟩], Selection.Empty, some 10⟩⟩
        ⟨2, some 10, 3⟩ none 0).2.1 = [DataDeviceEvent.NewSelection none]) ∧
      (handle_set_selection ⟨some ⟨some 11⟩, none, ⟨[⟨2, some 10, 3⟩], Selection.Empty, some 10⟩⟩
        ⟨2, some 10, 3⟩ none 0
          = (⟨some ⟨some 11⟩, none, ⟨[⟨2, some 10, 3⟩], Selection.Empty, some 10⟩⟩, [], [])) :=
  ⟨(((set_selection_requires_focus
        ⟨some ⟨some 10⟩, none, ⟨[⟨2, some 10, 3⟩], Selection.Empty, some 10⟩⟩
        ⟨2, some 10, 3⟩ none 0).1 (by decide)).1),
   ((set_selection_requires_focus
        ⟨some ⟨some 11⟩, none, ⟨[⟨2, some 10, 3⟩], Selection.Empty, some 10⟩⟩
        ⟨2, some 10, 3⟩ none 0).2 (by decide))⟩

/-- Claim C2: on an advertisement pass with a present focus, a client-owned
selection whose source has died collapses to empty and the focused client's
devices are sent a null selection; consequently, after any advertisement
pass with focus present, a client-owned selection always has a live
source. -/
theorem send_selection_prunes_dead_source (sd : SeatData) (c : Nat) (n : Nat)
    (hfocus : sd.current_focus = some c) :
    (∀ ds : WlDataSource,
        (sd.send_selection n).1.selection = Selection.Client ds → ds.alive = true) ∧
      (∀ ds : WlDataSource, sd.selection = Selection.Client ds → ds.alive = false →
        (sd.send_selection n).1.selection = Selection.Empty ∧
          (sd.send_selection n).2 =
            (belonging_devices sd c).map (fun dd => DDEvent.selection_event dd.id none)) := by
  obtain ⟨devs, sel, focus⟩ := sd
  simp only [SeatData.current_focus] at hfocus
  subst hfocus
  cases sel with
  | Empty =>
    constructor
    · intro ds h
      simp [SeatData.send_selection] at h
    · intro ds h
      simp [SeatData.selection] at h
  | Client ds0 =>
    cases hds : ds0.alive with
    | true =>
      constructor
      · intro ds h
        simp only [SeatData.send_selection, hds] at h
        simp at h
        exact h ▸ hds
      · intro ds h h2
        simp only [SeatData.selection, Selection.Client.injEq] at h
        subst h
        rw [hds] at h2
        exact absurd h2 (by simp)
    | false =>
      constructor
      · intro ds h
        simp only [SeatData.send_selection, hds] at h
        simp at h
      · intro ds h h2
        constructor
        · simp [SeatData.send_selection, hds]
        · simp [SeatData.send_selection, hds, belonging_devices]
  | Compositor meta =>
    constructor
    · intro ds h
      simp [SeatData.send_selection] at h
    · intro ds h
      simp [SeatData.selection] at h

/-- Witness for C2 at a concrete seat: focused client 10 owns one device;
the selection holds a dead source, and the pass collapses it to empty while
sending that device a null selection. -/
theorem send_selection_prunes_dead_source_witness :
    ((⟨[⟨2, some 10, 3⟩], Selection.Client ⟨1, false, ⟨["text/plain"], DndAction.empty⟩⟩,
        some 10⟩ : SeatData).send_selection 100).1.selection = Selection.Empty ∧
      ((⟨[⟨2, some 10, 3⟩], Selection.Client ⟨1, false, ⟨["text/plain"], DndAction.empty⟩⟩,
        some 10⟩ : SeatData).send_selection 100).2 = [DDEvent.selection_event 2 none] := by
  have h := (send_selection_prunes_dead_source
    ⟨[⟨2, some 10, 3⟩], Selection.Client ⟨1, false, ⟨["text/plain"], DndAction.empty⟩⟩, some 10⟩
    10 100 rfl).2 ⟨1, false, ⟨["text/plain"], DndAction.empty⟩⟩ rfl rfl
  exact ⟨h.1, by rw [h.2]; decide⟩

/-- Claim C3: a `StartDrag` request whose serial does not match a current
pointer grab is silently ignored: the seat state is unchanged (no drag grab
installed), no callback is delivered, and no wire event is emitted. -/
theorem start_drag_requires_grab (seat : Seat) (source : Option WlDataSource)
    (icon : Option IconSurface) (dd : WlDataDevice) (serial : Nat)
    (h : pointer_has_implicit_grab seat serial = false) :
    handle_start_drag seat source icon dd serial = (seat, [], []) := by
  obtain ⟨kb, pt, sdata⟩ := seat
  cases pt with
  | none => simp [handle_start_drag]
  | some p =>
    simp only [pointer_has_implicit_grab] at h
    simp [handle_start_drag, h]

/-- Witness for C3: a pointer grabbed at serial 5 receives a `StartDrag`
with serial 7; the request is a complete no-op. -/
theorem start_drag_requires_grab_witness :
    handle_start_drag ⟨none, some ⟨some 5, false⟩, ⟨[], Selection.Empty, none⟩⟩ none none
        ⟨2, some 10, 3⟩ 7
      = (⟨none, some ⟨some 5, false⟩, ⟨[], Selection.Empty, none⟩⟩, [], []) :=
  start_drag_requires_grab ⟨none, some ⟨some 5, false⟩, ⟨[], Selection.Empty, none⟩⟩ none none
    ⟨2, some 10, 3⟩ 7 (by decide)

/-- Claim C6 is contradicted by the code: `change_repeat_info` loops over
every known keyboard with no version check, so a keyboard of protocol
version 3 also receives the `repeat_info` event (which `new_kbd` itself only
sends to versions at least 4). -/
theorem change_repeat_info_sends_to_v3 :
    (KbdInternal.change_repeat_info ⟨[⟨7, 1, 3⟩], none, [], (0, 0, 0, 0), 25, 600⟩ 30 500).2
      = [KbdEvent.repeat_info 7 30 500] ∧
    (KbdInternal.change_repeat_info ⟨[⟨7, 1, 3⟩], none, [], (0, 0, 0, 0), 25, 600⟩ 30 500).1
      = ⟨[⟨7, 1, 3⟩], none, [], (0, 0, 0, 0), 30, 500⟩ := by
  exact ⟨rfl, rfl⟩

end Smithay
